import Mathlib

/-!
Shallow embedding of the AI-Voice-agent repository (FastAPI voice pipeline):

* `src/app/services/agent.py` — `agent_response`: search-trigger routing.
* `src/app/services/llm.py` — `get_llm_response`: Gemini call with 3-attempt
  retry, canned error messages.
* `src/app/main.py` — `handle_transcript`: per-turn event emission
  (final / assistant / audio) and history update.
* `src/app/services/stt.py` — `AssemblyAIStreamingTranscriber`: constructor
  validation, `_on_turn` callback dispatch, audio queue with end-of-stream
  sentinel, `close`.

External collaborators (the Gemini SDK, the AssemblyAI SDK, the network) are
abstracted as function parameters ("oracles").  Python strings are modelled as
Lean `String` restricted to ASCII behaviour of `str.strip`, `str.lower`,
`str.upper`; Python `bytes` as `List Nat`; a raised exception as an
`Except.error` carrying the exception text.
-/

namespace VoiceAgent

/-- Python ASCII whitespace, the characters matched by `str.strip()` and
regex `\s` on ASCII input: space, tab, newline, carriage return, vertical
tab, form feed. -/
def pyIsSpace (c : Char) : Bool :=
  c == ' ' || c == '\t' || c == '\n' || c == '\r' || c == '\x0b' || c == '\x0c'

/-- `str.strip()` on a character list: drop whitespace from both ends. -/
def stripList (l : List Char) : List Char :=
  ((l.dropWhile pyIsSpace).reverse.dropWhile pyIsSpace).reverse

/-- Python `s.strip()`. -/
def pyStrip (s : String) : String := String.mk (stripList s.toList)

/-- ASCII lower-casing of one character, Python `str.lower` on ASCII. -/
def pyLowerChar (c : Char) : Char :=
  match c with
  | 'A' => 'a' | 'B' => 'b' | 'C' => 'c' | 'D' => 'd' | 'E' => 'e' | 'F' => 'f'
  | 'G' => 'g' | 'H' => 'h' | 'I' => 'i' | 'J' => 'j' | 'K' => 'k' | 'L' => 'l'
  | 'M' => 'm' | 'N' => 'n' | 'O' => 'o' | 'P' => 'p' | 'Q' => 'q' | 'R' => 'r'
  | 'S' => 's' | 'T' => 't' | 'U' => 'u' | 'V' => 'v' | 'W' => 'w' | 'X' => 'x'
  | 'Y' => 'y' | 'Z' => 'z'
  | _ => c

/-- ASCII upper-casing of one character, Python `str.upper` on ASCII. -/
def pyUpperChar (c : Char) : Char :=
  match c with
  | 'a' => 'A' | 'b' => 'B' | 'c' => 'C' | 'd' => 'D' | 'e' => 'E' | 'f' => 'F'
  | 'g' => 'G' | 'h' => 'H' | 'i' => 'I' | 'j' => 'J' | 'k' => 'K' | 'l' => 'L'
  | 'm' => 'M' | 'n' => 'N' | 'o' => 'O' | 'p' => 'P' | 'q' => 'Q' | 'r' => 'R'
  | 's' => 'S' | 't' => 'T' | 'u' => 'U' | 'v' => 'V' | 'w' => 'W' | 'x' => 'X'
  | 'y' => 'Y' | 'z' => 'Z'
  | _ => c

/-- Python `s.lower()` (ASCII). -/
def pyLower (s : String) : String := String.mk (s.toList.map pyLowerChar)

/-- Python `s.upper()` (ASCII). -/
def pyUpper (s : String) : String := String.mk (s.toList.map pyUpperChar)

/-- Python `pat in s` substring test. -/
def strContains (s pat : String) : Bool :=
  s.toList.tails.any (fun t => pat.toList.isPrefixOf t)

/-- Python `str.isupper()` for a single ASCII character. -/
def pyIsUpper (c : Char) : Bool := 'A' ≤ c && c ≤ 'Z'

/-- One entry of the Gemini conversation history (`role`, text content). -/
structure HMsg where
  role : String
  text : String
deriving DecidableEq, Repr

/-- Python truthiness of an optional string: `None` and `""` are falsy. -/
def pyFalsyStr : Option String → Bool
  | none => true
  | some s => s == ""

/-! ## `src/app/services/llm.py` — `get_llm_response` (lines 19–74) -/

/-- llm.py line 29: returned when no API key is available. -/
def configureKeyMsg : String := "Please configure your Gemini API key in the settings."

/-- llm.py lines 64–72: map the raised exception's text (upper-cased) to one
of four fixed user-facing messages. -/
def classifyError (e : String) : String :=
  let u := pyUpper e
  if strContains u "API_KEY" || strContains u "INVALID" then
    "Invalid Gemini API key. Please check your configuration."
  else if strContains u "QUOTA" || strContains u "LIMIT" then
    "API quota exceeded. Please check your Gemini API usage limits."
  else if strContains u "NETWORK" || strContains u "CONNECTION" then
    "Network connectivity issue. Please check your internet connection."
  else
    "I\x27m experiencing technical difficulties. Please try again in a moment."

/-- The four canned user-facing messages of `classifyError`. -/
def cannedErrorMessages : List String :=
  [ "Invalid Gemini API key. Please check your configuration.",
    "API quota exceeded. Please check your Gemini API usage limits.",
    "Network connectivity issue. Please check your internet connection.",
    "I\x27m experiencing technical difficulties. Please try again in a moment." ]

/-- Oracle for one `chat.send_message` round trip (external Gemini SDK):
attempt `i` either raises (`.error` = exception text) or returns
`response.text` (possibly empty). -/
def LlmAttempt : Type := Nat → Except String String

/-- Result of `get_llm_response`: the returned text/history pair, plus the
list of `time.sleep` back-off durations executed (llm.py line 58), plus the
Python object-identity fact the caller's mutable-list update depends on:
`historyAliasesInput` is true when the returned history is the very same
list object as the input `history` — the case on the no-key branch
(llm.py line 29) and the exhaustion branch (line 74), which return
`history` itself; a successful call returns `chat.history`, the SDK chat's
own list, built fresh by `start_chat`. -/
structure LlmResult where
  text : String
  history : List HMsg
  sleeps : List Nat
  historyAliasesInput : Bool
deriving DecidableEq, Repr

/-- llm.py lines 43–58, the `for attempt in range(max_retries)` loop.
`fuel` is the number of remaining iterations (called with `fuel = 3`);
`fuel = 1` is the last attempt (`attempt == max_retries - 1`), on which a
failure re-raises instead of sleeping.  `.ok` carries `(text, history,
sleeps)`, `.error` the escaping exception text plus the sleeps so far.
The `fuel = 0` equation is never reached from `fuel = 3`. -/
def llmLoop (attempt : LlmAttempt) (user_query : String) (history : List HMsg) :
    Nat → Nat → List Nat → Except (String × List Nat) (String × List HMsg × List Nat)
  | _, 0, sleeps => .error ("", sleeps)
  | i, fuel + 1, sleeps =>
    match attempt i with
    | .ok t =>
      if pyStrip t == "" then
        -- `raise ValueError("Empty response from model")`, line 52
        if fuel == 0 then .error ("Empty response from model", sleeps)
        else llmLoop attempt user_query history (i + 1) fuel (sleeps ++ [1])
      else
        -- line 50: `return response.text.strip(), chat.history`
        .ok (pyStrip t,
             history ++ [⟨"user", user_query⟩, ⟨"model", t⟩],
             sleeps)
    | .error e =>
      if fuel == 0 then .error (e, sleeps)
      else llmLoop attempt user_query history (i + 1) fuel (sleeps ++ [1])

/-- llm.py lines 19–74, `get_llm_response`.  `api_key` is the function
argument, `env_key` the value of `os.getenv("GEMINI_API_KEY")`; both fall
through Python truthiness.  The external SDK is the `attempt` oracle. -/
def get_llm_response (attempt : LlmAttempt) (api_key env_key : Option String)
    (user_query : String) (history : List HMsg) : LlmResult :=
  let key := if pyFalsyStr api_key then env_key else api_key
  if pyFalsyStr key then
    ⟨configureKeyMsg, history, [], true⟩
  else
    match llmLoop attempt user_query history 0 3 [] with
    | .ok (t, h, sleeps) => ⟨t, h, sleeps, false⟩
    | .error (e, sleeps) => ⟨classifyError e, history, sleeps, true⟩

/-! ## `src/app/services/agent.py` — `agent_response` (lines 5–11) -/

/-- agent.py line 6. -/
def search_triggers : List String :=
  ["latest", "today", "price", "weather", "news", "update", "current"]

/-- agent.py line 8: `any(word in user_query.lower() for word in search_triggers)`. -/
def triggered (user_query : String) : Bool :=
  search_triggers.any (fun word => strContains (pyLower user_query) word)

/-- Modelled from the spec: `web_search` lives in `src/app/services/search.py`,
which is not present in the source tree.  §6 gives the Search Fallback
capability `generate(text, history) -> (text, history)`: a call that returns
result text for the query.  Like any Python callee it may also raise, which
is modelled as `Except.error` carrying the exception text. -/
def WebSearch : Type := String → Except String String

/-- agent.py lines 5–11, `agent_response`.  The underlying LLM call is the
`get_llm_response` model above (which never raises); `web_search` is called
with no exception handler, so its error propagates. -/
def agent_response (web_search : WebSearch) (attempt : LlmAttempt)
    (api_key env_key : Option String)
    (user_query : String) (history : List HMsg) :
    Except String (String × List HMsg) :=
  if triggered user_query then
    (web_search user_query).map (fun r => (r, history))
  else
    let r := get_llm_response attempt api_key env_key user_query history
    .ok (r.text, r.history)

/-- `agent_response` enriched with the Python object-identity fact its
caller's history update depends on: the Bool of the result is true when the
returned history is the very same list object as the input history.  On the
search path agent.py line 9 returns `history` itself, so the flag is true;
on the LLM path the flag is `get_llm_response`'s `historyAliasesInput`
(true on its no-key and exhaustion branches, false for the SDK-owned
`chat.history` of a success).  The value parts agree with `agent_response`
(`agent_response_obj_value` below). -/
def agent_response_obj (web_search : WebSearch) (attempt : LlmAttempt)
    (api_key env_key : Option String)
    (user_query : String) (history : List HMsg) :
    Except String (String × List HMsg × Bool) :=
  if triggered user_query then
    (web_search user_query).map (fun r => (r, history, true))
  else
    let r := get_llm_response attempt api_key env_key user_query history
    .ok (r.text, r.history, r.historyAliasesInput)

/-! ## `src/app/main.py` — sentence split and `handle_transcript` (lines 43–74) -/

/-- `c` is one of the sentence-ending characters of the regex
`(?<=[.?!])\s+` in main.py line 58. -/
def isSentEnd (c : Char) : Bool := c == '.' || c == '?' || c == '!'

/-- The scanner of `re.split(r'(?<=[.?!])\s+', s)`.  `acc` is the current
piece, reversed; `skipping = true` while inside a matched whitespace
separator.  A separator starts at a whitespace character whose predecessor
(the head of `acc`) is `.`, `?` or `!`, and greedily consumes the whole
whitespace run. -/
def splitGo : List Char → Bool → List Char → List (List Char)
  | acc, _, [] => [acc.reverse]
  | acc, true, c :: cs =>
    if pyIsSpace c then splitGo acc true cs
    else splitGo [c] false cs
  | acc, false, c :: cs =>
    if (match acc with | p :: _ => isSentEnd p | [] => false) && pyIsSpace c then
      acc.reverse :: splitGo [] true cs
    else splitGo (c :: acc) false cs

/-- main.py line 58: `re.split(r'(?<=[.?!])\s+', s)`. -/
def pySplitSentences (s : String) : List String :=
  (splitGo [] false s.toList).map String.mk

/-- The standard base64 alphabet. -/
def b64alphabet : List Char :=
  "ABCDEFGHIJKLMNOPQRSTUVWXYZabcdefghijklmnopqrstuvwxyz0123456789+/".toList

/-- Sextet number to base64 digit. -/
def b64char (n : Nat) : Char := b64alphabet.getD n 'A'

/-- `base64.b64encode` over a byte list, 3 bytes to 4 digits with `=` padding. -/
def b64encodeList : List Nat → List Char
  | [] => []
  | [a] => [b64char (a / 4 % 64), b64char (a % 4 * 16), '=', '=']
  | [a, b] => [b64char (a / 4 % 64), b64char (a % 4 * 16 + b / 16 % 16),
               b64char (b % 16 * 4), '=']
  | a :: b :: c :: rest =>
      b64char (a / 4 % 64) :: b64char (a % 4 * 16 + b / 16 % 16) ::
      b64char (b % 16 * 4 + c / 64 % 4) :: b64char (c % 64) :: b64encodeList rest

/-- main.py line 67: `base64.b64encode(audio_bytes).decode("utf-8")`. -/
def b64encode (bs : List Nat) : String := String.mk (b64encodeList bs)

/-- The typed outbound WebSocket events of main.py
(`{"type": ...}` JSON messages). -/
inductive Event
  | final (text : String)
  | assistant (text : String)
  | audio (b64 : String)
  | ack (text : String)
  | error (text : String)
deriving DecidableEq, Repr

/-- Modelled from the spec: `tts.speak` lives in `src/app/services/tts.py`,
which is not present in the source tree.  §4.3 Speech Synthesizer:
`synthesize(sentenceText: string) -> audioBytes | null` — one sentence in,
an encoded audio payload or a null/failed result out, total from the
orchestrator's viewpoint. -/
def SpeechSynth : Type := String → Option (List Nat)

/-- main.py lines 61–68, the body of the per-sentence loop: skip
whitespace-only sentences, call `tts.speak(sentence.strip())`, and emit an
`audio` event only for a truthy (non-null, non-empty) byte result. -/
def sentSlot (tts : SpeechSynth) (sentence : String) : Option Event :=
  if pyStrip sentence == "" then none
  else
    match tts (pyStrip sentence) with
    | none => none
    | some bs => if bs == [] then none else some (Event.audio (b64encode bs))

/-- main.py line 73: text of the generic pipeline-failure event. -/
def pipelineErrorMsg : String := "Sorry, something went wrong."

/-- main.py lines 43–74, `handle_transcript`: emit a `final` event, call
`agent_response` (here an abstract `agent` that may raise; the Bool of its
result records whether the returned history is the very same list object as
`chat_history`), update the history, emit `assistant`, then one `audio`
event per successfully synthesized non-empty sentence of the stripped
reply.

The history update (main.py lines 51–52) is `chat_history.clear()` followed
by `chat_history.extend(updated_history)` on a mutable list:  `clear()`
empties the list object in place, and `extend` then appends the elements
`updated_history` holds *at that moment*.  When `updated_history` is the
same object as `chat_history` (flag true), the clear has just emptied it,
so the extend restores nothing and the history ends empty; when it is a
distinct object (flag false), the history becomes its elements.

Any exception after the `final` event is caught and turned into a single
generic `error` event (main.py lines 70–74), leaving the history as it was
at the time of the failure.  Returns the outbound event list in emission
order, with the final history. -/
def handle_transcript
    (agent : String → List HMsg → Except String (String × List HMsg × Bool))
    (tts : SpeechSynth) (text : String) (chat_history : List HMsg) :
    List Event × List HMsg :=
  match agent text chat_history with
  | .error _ => ([Event.final text, Event.error pipelineErrorMsg], chat_history)
  | .ok (full_response, updated_history, aliased) =>
    let sentences := pySplitSentences (pyStrip full_response)
    (Event.final text :: Event.assistant full_response ::
       sentences.filterMap (sentSlot tts),
     if aliased then [] else updated_history)

/-! ## `src/app/services/stt.py` — `AssemblyAIStreamingTranscriber` -/

/-- Exceptions the constructor can raise (stt.py lines 128–131, 142–144,
350–352).  Both credential failures are `ValueError` in the source; the
missing-credential one plays the spec's `ConfigurationError` role (§7). -/
inductive InitError
  | configurationError (msg : String)
  | invalidKeyError (msg : String)
  | connectionTimeout
deriving DecidableEq, Repr

/-- stt.py lines 129–131: message of the missing-credential `ValueError`. -/
def assemblyKeyRequiredMsg : String :=
  "AssemblyAI API key is required. Please provide it via UI or set ASSEMBLYAI_API_KEY in .env"

/-- State of one streaming transcriber.  `q` is the history of items put
into the concurrency-safe audio queue `self._q`, in order: `some chunk` for
audio, `none` for the end-of-stream sentinel put by `close`.
`workerAlive` models `self._thread.is_alive()`. -/
structure TState where
  q : List (Option (List Nat))
  workerAlive : Bool
deriving DecidableEq, Repr

/-- stt.py lines 118–177 plus 315–352, `__init__`: raise on a falsy key
(Python truthiness, line 128), raise if the key fails remote validation
(line 142–144, outcome abstracted as `validateOk`), then start the
background thread and wait for the connection (bounded 10 s, outcome
abstracted as `connectOk`); on success the queue is empty and the worker
runs. -/
def transcriberInit (validateOk connectOk : Bool) (api_key : Option String) :
    Except InitError TState :=
  if pyFalsyStr api_key then .error (.configurationError assemblyKeyRequiredMsg)
  else if !validateOk then .error (.invalidKeyError "Invalid AssemblyAI API key")
  else if !connectOk then .error .connectionTimeout
  else .ok { q := [], workerAlive := true }

/-- stt.py lines 248–251, `stream_audio`: a truthy (non-empty) chunk is put
on the queue; an empty chunk is ignored.  The queue accepts puts at any
time, including after `close`. -/
def stream_audio (st : TState) (audio_chunk : List Nat) : TState :=
  if audio_chunk == [] then st else { st with q := st.q ++ [some audio_chunk] }

/-- stt.py lines 302–313, `_audio_generator`: the background worker consumes
the queue in FIFO order and yields chunks until the first `None` sentinel.
The chunks actually transmitted to the provider are therefore the non-
sentinel items before the first sentinel.  (The 30 s starvation timeout is
real-time behaviour outside this model.) -/
def deliveredChunks (q : List (Option (List Nat))) : List (List Nat) :=
  (q.takeWhile Option.isSome).filterMap id

/-- stt.py lines 253–266, `close`: put the end-of-stream sentinel, then join
the worker thread (bounded, `timeout=5`) only if it is still alive; the
join lets the worker drain up to the sentinel and exit.  Statistics logging
omitted.  Returns the new state and whether a join was performed. -/
def close (st : TState) : TState × Bool :=
  let st1 : TState := { st with q := st.q ++ [none] }
  if st1.workerAlive then ({ st1 with workerAlive := false }, true)
  else (st1, false)

/-- One call against the transcriber handle, as issued by the WebSocket
loop in main.py: feed one binary frame, or close the handle. -/
inductive TOp
  | feed (chunk : List Nat)
  | close
deriving DecidableEq, Repr

/-- Is this the `close` call? -/
def isCloseOp : TOp → Bool
  | .close => true
  | _ => false

/-- The chunk a `feed` call would enqueue (`none` for empty chunks and for
`close`), mirroring the truthiness test in `stream_audio`. -/
def opSlot : TOp → Option (List Nat)
  | .feed c => if c == [] then none else some c
  | .close => none

/-- Run a sequence of calls against a transcriber state. -/
def runOps (st : TState) : List TOp → TState
  | [] => st
  | .feed c :: rest => runOps (stream_audio st c) rest
  | .close :: rest => runOps (VoiceAgent.close st).1 rest

/-- main.py lines 81–112: the endpoint constructs the transcriber before
entering the receive loop; if the constructor raises, the loop is never
entered and `stream_audio` is never called, so nothing reaches the
provider.  On success, every binary frame is fed, and what reaches the
provider is `deliveredChunks` of the resulting queue. -/
def websocketForwardedAudio (initRes : Except InitError TState)
    (frames : List (List Nat)) : List (List Nat) :=
  match initRes with
  | .error _ => []
  | .ok st => deliveredChunks (frames.foldl stream_audio st).q

/-! ### `_on_turn` (stt.py lines 189–228) -/

/-- The fields of an AssemblyAI `TurnEvent` used by `_on_turn`. -/
structure TurnEvent where
  transcript : Option String
  end_of_turn : Bool
  turn_is_formatted : Bool
deriving DecidableEq, Repr

/-- Which user callback `_on_turn` invokes, with the text passed to it. -/
inductive CallbackCall
  | finalCall (text : String)
  | partialCall (text : String)
deriving DecidableEq, Repr

/-- Python `re.sub(r'\s+', ' ', text)`: replace each maximal whitespace run
by a single space.  `inRun = true` while inside a run that has already
emitted its space. -/
def collapseWs : Bool → List Char → List Char
  | _, [] => []
  | inRun, c :: cs =>
    if pyIsSpace c then
      if inRun then collapseWs true cs else ' ' :: collapseWs true cs
    else c :: collapseWs false cs

/-- Python `text[0].upper() + text[1:]` guarded by
`if text and not text[0].isupper()` (stt.py lines 243–244). -/
def capitalizeFirst : List Char → List Char
  | [] => []
  | c :: cs => if !pyIsUpper c then pyUpperChar c :: cs else c :: cs

/-- stt.py lines 230–246, `_process_transcript_text`: strip, collapse
whitespace runs, capitalize the first letter if needed. -/
def processTranscriptText (s : String) : String :=
  if s == "" then ""
  else String.mk (capitalizeFirst (collapseWs false (stripList s.toList)))

/-- stt.py lines 189–228, `_on_turn`: `text = (event.transcript or
"").strip()`; empty text returns immediately; otherwise the processed text
goes to the final callback on end-of-turn (if registered) or to the partial
callback (if registered).  Statistics updates omitted.  The second
component records whether `set_params(format_turns=True)` is issued
(end-of-turn with an unformatted turn). -/
def onTurn (hasFinalCb hasPartialCb : Bool) (ev : TurnEvent) :
    Option CallbackCall × Bool :=
  let text := pyStrip (ev.transcript.getD "")
  if text == "" then (none, false)
  else
    let processed := processTranscriptText text
    if ev.end_of_turn then
      ((if hasFinalCb then some (.finalCall processed) else none),
       !ev.turn_is_formatted)
    else
      ((if hasPartialCb then some (.partialCall processed) else none), false)

end VoiceAgent


/-! ## Helper lemmas -/

namespace VoiceAgent

/-- `classifyError` always lands in the list of canned messages. -/
theorem classifyError_mem (e : String) : classifyError e ∈ cannedErrorMessages := by
  simp only [classifyError, cannedErrorMessages]
  split
  · simp
  · split
    · simp
    · split <;> simp

/-- If `tts` fails on the stripped sentence, the loop body emits nothing. -/
theorem sentSlot_none_of_tts_none (tts : SpeechSynth) (s : String)
    (h : tts (pyStrip s) = none) : sentSlot tts s = none := by
  unfold sentSlot
  split
  · rfl
  · rw [h]

/-- Whatever the loop body emits is an `audio` event. -/
theorem sentSlot_audio (tts : SpeechSynth) (s : String) (e : Event)
    (h : sentSlot tts s = some e) : ∃ b, e = Event.audio b := by
  unfold sentSlot at h
  split at h
  · exact absurd h (by simp)
  · split at h
    · exact absurd h (by simp)
    · split at h
      · exact absurd h (by simp)
      · exact ⟨_, (Option.some.inj h).symm⟩

/-- The value parts of `agent_response_obj` agree with `agent_response`:
the enrichment only adds the object-identity flag. -/
theorem agent_response_obj_value (web_search : WebSearch) (attempt : LlmAttempt)
    (api_key env_key : Option String) (user_query : String) (history : List HMsg) :
    (agent_response_obj web_search attempt api_key env_key user_query history).map
        (fun r => (r.1, r.2.1)) =
      agent_response web_search attempt api_key env_key user_query history := by
  unfold agent_response_obj agent_response
  by_cases htrig : triggered user_query
  · rw [if_pos htrig, if_pos htrig]
    cases web_search user_query <;> rfl
  · rw [if_neg htrig, if_neg htrig]
    rfl

/-- `takeWhile` over an append ignores the suffix when the prefix already
contains an element falsifying the predicate. -/
theorem takeWhile_append_of_bad {α} (p : α → Bool) (q r : List α)
    (h : ∃ x ∈ q, p x = false) : (q ++ r).takeWhile p = q.takeWhile p := by
  induction q with
  | nil => obtain ⟨x, hx, _⟩ := h; exact absurd hx (by simp)
  | cons a q ih =>
    by_cases ha : p a
    · simp only [List.cons_append, List.takeWhile_cons, ha]
      obtain ⟨x, hx, hpx⟩ := h
      rcases List.mem_cons.mp hx with rfl | hx'
      · rw [ha] at hpx; cases hpx
      · rw [ih ⟨x, hx', hpx⟩]
    · simp only [List.cons_append, List.takeWhile_cons, Bool.not_eq_true] at ha ⊢
      rw [ha]
      simp

/-- `takeWhile` keeps a list all of whose elements satisfy the predicate. -/
theorem takeWhile_eq_self_of_all {α} (p : α → Bool) (q : List α)
    (h : ∀ x ∈ q, p x = true) : q.takeWhile p = q := by
  induction q with
  | nil => rfl
  | cons a q ih =>
    have ha := h a (by simp)
    simp [List.takeWhile_cons, ha, ih fun x hx => h x (List.mem_cons_of_mem a hx)]

/-- `takeWhile` passes over a prefix all of whose elements satisfy the
predicate. -/
theorem takeWhile_append_all {α} (p : α → Bool) (q r : List α)
    (h : ∀ x ∈ q, p x = true) : (q ++ r).takeWhile p = q ++ r.takeWhile p := by
  induction q with
  | nil => rfl
  | cons a q ih =>
    have ha := h a (by simp)
    simp [List.takeWhile_cons, ha, ih fun x hx => h x (List.mem_cons_of_mem a hx)]

/-- All-`some` queues have no sentinel contribution. -/
theorem all_isSome_of_not_mem (q : List (Option (List Nat)))
    (h : (none : Option (List Nat)) ∉ q) : ∀ x ∈ q, Option.isSome x = true := by
  intro x hx
  cases x with
  | none => exact absurd hx h
  | some _ => rfl

/-- With no sentinel in the queue, appending a chunk appends to the
delivered list. -/
theorem delivered_append_some (q : List (Option (List Nat))) (c : List Nat)
    (h : (none : Option (List Nat)) ∉ q) :
    deliveredChunks (q ++ [some c]) = deliveredChunks q ++ [c] := by
  have hall := all_isSome_of_not_mem q h
  unfold deliveredChunks
  rw [takeWhile_append_all _ _ _ hall, takeWhile_eq_self_of_all _ _ hall,
    List.filterMap_append]
  simp [List.takeWhile]

/-- With no sentinel in the queue, appending the sentinel leaves the
delivered list unchanged. -/
theorem delivered_append_sentinel (q : List (Option (List Nat)))
    (h : (none : Option (List Nat)) ∉ q) :
    deliveredChunks (q ++ [none]) = deliveredChunks q := by
  have hall := all_isSome_of_not_mem q h
  unfold deliveredChunks
  rw [takeWhile_append_all _ _ _ hall, takeWhile_eq_self_of_all _ _ hall]
  simp [List.takeWhile]

/-- Once the queue contains a sentinel, later puts never reach the
delivered list. -/
theorem delivered_append_of_sentinel_mem (q r : List (Option (List Nat)))
    (h : (none : Option (List Nat)) ∈ q) :
    deliveredChunks (q ++ r) = deliveredChunks q := by
  unfold deliveredChunks
  rw [takeWhile_append_of_bad _ q r ⟨none, h, rfl⟩]

end VoiceAgent

namespace VoiceAgent

/-! ## Claim theorems -/

/-- C3: for every query whose lower-cased text contains one of the trigger
words (`triggered`), and every history, `agent_response` delegates to the
search fallback: its result is exactly `web_search`'s result paired with
the unmodified input history, and in particular a successful search returns
`.ok (result, history)` with the history untouched. -/
theorem c3_search_routing (web_search : WebSearch) (attempt : LlmAttempt)
    (api_key env_key : Option String) (user_query : String) (history : List HMsg)
    (htrig : triggered user_query = true) :
    agent_response web_search attempt api_key env_key user_query history =
      (web_search user_query).map (fun r => (r, history)) ∧
    ∀ r, web_search user_query = .ok r →
      agent_response web_search attempt api_key env_key user_query history =
        .ok (r, history) := by
  constructor
  · unfold agent_response
    rw [if_pos htrig]
  · intro r hr
    unfold agent_response
    rw [if_pos htrig, hr]
    rfl

/-- C3 witness: the query `"what's today's weather"` (trigger words "today",
"weather") is routed to the search fallback and the history comes back
unchanged. -/
theorem c3_search_routing_witness :
    agent_response (fun _ => .ok "search result") (fun _ => .error "llm down")
      none none "what\x27s today\x27s weather" [⟨"user", "earlier"⟩] =
      .ok ("search result", [⟨"user", "earlier"⟩]) :=
  (c3_search_routing (fun _ => .ok "search result") (fun _ => .error "llm down")
    none none "what\x27s today\x27s weather" [⟨"user", "earlier"⟩] rfl).2
    "search result" rfl

/-- C4: the claim fails on the code.  On a successful search-routed turn
`agent_response` returns the input history *object itself* (agent.py
line 9), so `chat_history.clear()` (main.py line 51) destroys the only
copy and `chat_history.extend(updated_history)` re-adds nothing: at the
failing input below — trigger query `"today weather"`, prior history one
entry, search succeeding with `"Sunny."` — the history comes back empty,
where the claim (and spec §4.2: "the *unmodified* input history", "no
entries are lost") requires it equal to its pre-turn contents.  Prior
entries ARE lost: every search-routed turn wipes the conversation
memory. -/
theorem c4_history_emptied_on_search :
    (handle_transcript
        (agent_response_obj (fun _ => .ok "Sunny.") (fun _ => .error "llm down")
          none none)
        (fun _ => some [1, 2]) "today weather" [⟨"user", "earlier"⟩]).2 = [] := rfl

/-- C5: if the language-model call raises on all 3 attempts (and an API key
is present so the attempts are made), `get_llm_response` returns one of the
four fixed canned apology messages — never the raw error text — paired with
the unmodified input history, with the two fixed 1-second back-off sleeps
between the three attempts. -/
theorem c5_llm_failure_apology (attempt : LlmAttempt)
    (api_key env_key : Option String) (user_query : String) (history : List HMsg)
    (hkey : pyFalsyStr (if pyFalsyStr api_key then env_key else api_key) = false)
    (hfail : ∀ i, i < 3 → ∃ e, attempt i = .error e) :
    (get_llm_response attempt api_key env_key user_query history).text ∈
      cannedErrorMessages ∧
    (get_llm_response attempt api_key env_key user_query history).history = history ∧
    (get_llm_response attempt api_key env_key user_query history).sleeps = [1, 1] := by
  obtain ⟨e0, h0⟩ := hfail 0 (by omega)
  obtain ⟨e1, h1⟩ := hfail 1 (by omega)
  obtain ⟨e2, h2⟩ := hfail 2 (by omega)
  unfold get_llm_response
  rw [if_neg (by simp [hkey])]
  have hloop : llmLoop attempt user_query history 0 3 [] = .error (e2, [1, 1]) := by
    unfold llmLoop
    rw [h0]
    unfold llmLoop
    rw [h1]
    unfold llmLoop
    rw [h2]
    rfl
  rw [hloop]
  exact ⟨classifyError_mem e2, rfl, rfl⟩

/-- C5 witness: three raising attempts with a configured key. -/
theorem c5_llm_failure_apology_witness :
    (get_llm_response (fun _ => .error "boom") (some "k") none "hi"
        [⟨"user", "x"⟩]).text ∈ cannedErrorMessages ∧
    (get_llm_response (fun _ => .error "boom") (some "k") none "hi"
        [⟨"user", "x"⟩]).history = [⟨"user", "x"⟩] ∧
    (get_llm_response (fun _ => .error "boom") (some "k") none "hi"
        [⟨"user", "x"⟩]).sleeps = [1, 1] :=
  c5_llm_failure_apology (fun _ => .error "boom") (some "k") none "hi"
    [⟨"user", "x"⟩] rfl (fun _ _ => ⟨"boom", rfl⟩)

end VoiceAgent

namespace VoiceAgent

/-- C6 counterexample: `agent_response` is not total at its boundary.  On a
trigger query (`"today"`), an exception raised inside the search fallback
propagates to the caller unchanged — agent.py line 9 calls `web_search`
with no exception handler. -/
theorem c6_totality_counterexample :
    agent_response (fun _ => .error "search backend down") (fun _ => .error "x")
      none none "today" [] = .error "search backend down" := rfl

/-- C6 amended: `agent_response` never propagates a failure of the
underlying language model or of credential lookup — the non-search path
always returns an `.ok (text, history)` pair, because `get_llm_response`
catches every exception.  The only failures that can escape
`agent_response` are exceptions of the search fallback, on trigger
queries. -/
theorem c6_totality_amended (web_search : WebSearch) (attempt : LlmAttempt)
    (api_key env_key : Option String) (user_query : String) (history : List HMsg) :
    (triggered user_query = false →
      agent_response web_search attempt api_key env_key user_query history =
        .ok ((get_llm_response attempt api_key env_key user_query history).text,
             (get_llm_response attempt api_key env_key user_query history).history)) ∧
    (∀ e, agent_response web_search attempt api_key env_key user_query history =
        .error e →
      triggered user_query = true ∧ web_search user_query = .error e) := by
  constructor
  · intro hfalse
    unfold agent_response
    rw [if_neg (by simp [hfalse])]
  · intro e herr
    unfold agent_response at herr
    by_cases htrig : triggered user_query
    · rw [if_pos htrig] at herr
      refine ⟨htrig, ?_⟩
      cases hw : web_search user_query with
      | error e' => rw [hw] at herr; cases herr; rfl
      | ok r => rw [hw] at herr; cases herr
    · rw [if_neg htrig] at herr
      cases herr

/-- C6 amended witness: an LLM that raises on every attempt, with no key
configured anywhere, still resolves to an `.ok` pair on a non-trigger
query. -/
theorem c6_totality_amended_witness :
    agent_response (fun _ => .error "search backend down") (fun _ => .error "x")
      none none "hello there" [] = .ok (configureKeyMsg, []) :=
  (c6_totality_amended (fun _ => .error "search backend down") (fun _ => .error "x")
    none none "hello there" []).1 rfl

/-- C7: with an empty or missing credential the transcriber constructor
fails up front with the missing-credential error (stt.py line 128, before
the queue or the background thread exist), and for any sequence of inbound
binary frames nothing is ever forwarded to the provider. -/
theorem c7_missing_credential (validateOk connectOk : Bool)
    (api_key : Option String) (hk : pyFalsyStr api_key = true) :
    transcriberInit validateOk connectOk api_key =
      .error (.configurationError assemblyKeyRequiredMsg) ∧
    ∀ frames, websocketForwardedAudio
        (transcriberInit validateOk connectOk api_key) frames = [] := by
  have hinit : transcriberInit validateOk connectOk api_key =
      .error (.configurationError assemblyKeyRequiredMsg) := by
    unfold transcriberInit
    rw [if_pos hk]
  refine ⟨hinit, fun frames => ?_⟩
  unfold websocketForwardedAudio
  rw [hinit]

/-- C7 witness: a missing (`None`) key, with remote validation and
connection both nominally fine. -/
theorem c7_missing_credential_witness :
    transcriberInit true true none =
      .error (.configurationError assemblyKeyRequiredMsg) ∧
    websocketForwardedAudio (transcriberInit true true none) [[1, 2], [3]] = [] :=
  ⟨(c7_missing_credential true true none rfl).1,
   (c7_missing_credential true true none rfl).2 [[1, 2], [3]]⟩

/-- C10: `close` on a transcriber whose background worker has already
terminated does not join (so it cannot block on the worker), leaves the
worker state and the set of chunks delivered to the provider unchanged, and
— being a total function in this model — raises nothing. -/
theorem c10_close_idempotent (st : TState) (hdead : st.workerAlive = false)
    (hsent : (none : Option (List Nat)) ∈ st.q) :
    (close st).2 = false ∧
    (close st).1.workerAlive = false ∧
    deliveredChunks (close st).1.q = deliveredChunks st.q := by
  unfold close
  rw [if_neg (by simp [hdead])]
  exact ⟨rfl, hdead, delivered_append_of_sentinel_mem st.q [none] hsent⟩

/-- C10 witness: a state after a completed first close (sentinel enqueued,
worker exited). -/
theorem c10_close_idempotent_witness :
    (close ⟨[some [7], none], false⟩).2 = false ∧
    (close ⟨[some [7], none], false⟩).1.workerAlive = false ∧
    deliveredChunks (close ⟨[some [7], none], false⟩).1.q =
      deliveredChunks [some [7], none] :=
  c10_close_idempotent ⟨[some [7], none], false⟩ rfl (by simp)

end VoiceAgent

namespace VoiceAgent

/-- Running calls against a queue that already contains the sentinel never
changes what is delivered to the provider. -/
theorem runOps_delivered_of_sentinel : ∀ (ops : List TOp) (st : TState),
    (none : Option (List Nat)) ∈ st.q →
    deliveredChunks (runOps st ops).q = deliveredChunks st.q := by
  intro ops
  induction ops with
  | nil => intro st _; rfl
  | cons op rest ih =>
    intro st hmem
    cases op with
    | feed c =>
      show deliveredChunks (runOps (stream_audio st c) rest).q = _
      unfold stream_audio
      split
      · exact ih st hmem
      · rw [ih _ (by exact List.mem_append_left _ hmem)]
        exact delivered_append_of_sentinel_mem st.q [some c] hmem
    | close =>
      show deliveredChunks (runOps (VoiceAgent.close st).1 rest).q = _
      have hq : (VoiceAgent.close st).1.q = st.q ++ [none] := by
        unfold VoiceAgent.close
        cases h : st.workerAlive <;> simp [h]
      rw [ih _ (by rw [hq]; exact List.mem_append_left _ hmem), hq]
      exact delivered_append_of_sentinel_mem st.q [none] hmem

/-- As long as no close happened, delivery is an append-only FIFO log of the
truthy fed chunks; the first close cuts it off. -/
theorem runOps_delivered_no_sentinel : ∀ (ops : List TOp) (st : TState),
    (none : Option (List Nat)) ∉ st.q →
    deliveredChunks (runOps st ops).q =
      deliveredChunks st.q ++
        (ops.takeWhile (fun o => !isCloseOp o)).filterMap opSlot := by
  intro ops
  induction ops with
  | nil => intro st _; simp [runOps]
  | cons op rest ih =>
    intro st hmem
    cases op with
    | feed c =>
      show deliveredChunks (runOps (stream_audio st c) rest).q = _
      have htake : ((TOp.feed c :: rest).takeWhile (fun o => !isCloseOp o)) =
          TOp.feed c :: rest.takeWhile (fun o => !isCloseOp o) := by
        simp [List.takeWhile_cons, isCloseOp]
      rw [htake, List.filterMap_cons]
      unfold stream_audio
      split
      · rename_i hc
        rw [ih st hmem]
        simp only [opSlot, hc, if_pos]
      · rename_i hc
        have hmem' : (none : Option (List Nat)) ∉ st.q ++ [some c] := by
          intro hx
          rcases List.mem_append.mp hx with hx' | hx'
          · exact hmem hx'
          · simp at hx'
        rw [ih _ hmem']
        show deliveredChunks (st.q ++ [some c]) ++ _ = _
        rw [delivered_append_some st.q c hmem]
        simp only [opSlot, hc, if_neg]
        simp
    | close =>
      show deliveredChunks (runOps (VoiceAgent.close st).1 rest).q = _
      have hq : (VoiceAgent.close st).1.q = st.q ++ [none] := by
        unfold VoiceAgent.close
        cases h : st.workerAlive <;> simp [h]
      have htake : ((TOp.close :: rest).takeWhile (fun o => !isCloseOp o)) =
          ([] : List TOp) := by
        simp [List.takeWhile_cons, isCloseOp]
      rw [htake]
      rw [runOps_delivered_of_sentinel rest _ (by rw [hq]; exact List.mem_append_right _ (by simp)), hq]
      rw [delivered_append_sentinel st.q hmem]
      simp

/-- C9: for a freshly constructed transcriber and any sequence of
`stream_audio` / `close` calls, the chunks transmitted to the provider are
exactly the truthy chunks fed before the first `close`, in FIFO receipt
order — a feed followed immediately by `close` still delivers every queued
chunk before the sentinel, and chunks fed after `close` are silently
dropped. -/
theorem c9_fifo_delivery (validateOk connectOk : Bool) (api_key : Option String)
    (st : TState) (hinit : transcriberInit validateOk connectOk api_key = .ok st)
    (ops : List TOp) :
    deliveredChunks (runOps st ops).q =
      (ops.takeWhile (fun o => !isCloseOp o)).filterMap opSlot := by
  have hst : st = ⟨[], true⟩ := by
    unfold transcriberInit at hinit
    split at hinit
    · cases hinit
    · split at hinit
      · cases hinit
      · split at hinit
        · cases hinit
        · exact (Except.ok.inj hinit).symm
  subst hst
  have := runOps_delivered_no_sentinel ops ⟨[], true⟩ (by simp)
  simpa [deliveredChunks] using this

/-- C9 witness: feed, feed, immediate close, then a late feed — the two
chunks fed before the close are delivered in order, the late one is
dropped. -/
theorem c9_fifo_delivery_witness :
    deliveredChunks (runOps ⟨[], true⟩
        [.feed [1], .feed [], .feed [2, 3], .close, .feed [4]]).q = [[1], [2, 3]] := by
  have := c9_fifo_delivery true true (some "k") ⟨[], true⟩ rfl
    [.feed [1], .feed [], .feed [2, 3], .close, .feed [4]]
  simpa using this

end VoiceAgent

namespace VoiceAgent

/-- C1: within one successful turn on a non-empty final transcript, the
event list of `handle_transcript` is exactly the `final` event, then the
`assistant` event, then the per-sentence audio events in sentence order —
every event after the first two is an `audio` event. -/
theorem c1_event_order
    (agent : String → List HMsg → Except String (String × List HMsg × Bool))
    (tts : SpeechSynth) (text : String) (hist : List HMsg)
    (full : String) (updated : List HMsg) (aliased : Bool)
    (_hne : pyStrip text ≠ "")
    (hok : agent text hist = .ok (full, updated, aliased)) :
    (handle_transcript agent tts text hist).1 =
      Event.final text :: Event.assistant full ::
        (pySplitSentences (pyStrip full)).filterMap (sentSlot tts) ∧
    ∀ e ∈ (pySplitSentences (pyStrip full)).filterMap (sentSlot tts),
      ∃ b, e = Event.audio b := by
  constructor
  · unfold handle_transcript
    rw [hok]
  · intro e he
    obtain ⟨s, _, hs⟩ := List.mem_filterMap.mp he
    exact sentSlot_audio tts s e hs

/-- C1 witness: a two-sentence reply with both syntheses succeeding. -/
theorem c1_event_order_witness :
    (handle_transcript (fun _ h => .ok ("Hi there. All good!", h, false))
        (fun _ => some [9]) "hello friend" []).1 =
      Event.final "hello friend" :: Event.assistant "Hi there. All good!" ::
        (pySplitSentences (pyStrip "Hi there. All good!")).filterMap
          (sentSlot (fun _ => some [9])) :=
  (c1_event_order (fun _ h => .ok ("Hi there. All good!", h, false)) (fun _ => some [9])
    "hello friend" [] "Hi there. All good!" [] false (by decide) rfl).1

/-- C2: for a successful turn, the audio events are the order-preserving
image of the sentence list under the loop body: at most one per sentence
(so at most N audio events for N sentences), none for whitespace-only
sentences, and a `None` synthesis for one sentence leaves the contributions
of the sentences before and after it intact. -/
theorem c2_sentence_audio
    (agent : String → List HMsg → Except String (String × List HMsg × Bool))
    (tts : SpeechSynth) (text : String) (hist : List HMsg)
    (full : String) (updated : List HMsg) (aliased : Bool)
    (hok : agent text hist = .ok (full, updated, aliased)) :
    (handle_transcript agent tts text hist).1 =
      Event.final text :: Event.assistant full ::
        (pySplitSentences (pyStrip full)).filterMap (sentSlot tts) ∧
    ((pySplitSentences (pyStrip full)).filterMap (sentSlot tts)).length ≤
      (pySplitSentences (pyStrip full)).length ∧
    (∀ s ∈ pySplitSentences (pyStrip full), pyStrip s = "" → sentSlot tts s = none) ∧
    (∀ pre s post, pySplitSentences (pyStrip full) = pre ++ s :: post →
      tts (pyStrip s) = none →
      (pySplitSentences (pyStrip full)).filterMap (sentSlot tts) =
        pre.filterMap (sentSlot tts) ++ post.filterMap (sentSlot tts)) := by
  refine ⟨?_, ?_, ?_, ?_⟩
  · unfold handle_transcript
    rw [hok]
  · exact List.length_filterMap_le _ _
  · intro s _ hempty
    unfold sentSlot
    rw [if_pos (by simp [hempty])]
  · intro pre s post hsplit hnone
    rw [hsplit, List.filterMap_append, List.filterMap_cons,
      sentSlot_none_of_tts_none tts s hnone]

/-- C2 witness: reply `"A one. B two. C three."`; synthesis fails on the
middle sentence, yet the first and third sentences still produce their
audio events, in order. -/
theorem c2_sentence_audio_witness :
    (pySplitSentences (pyStrip "A one. B two. C three.")).filterMap
        (sentSlot (fun s => if s == "B two." then none else some [5])) =
      ["A one."].filterMap (sentSlot (fun s => if s == "B two." then none else some [5])) ++
      ["C three."].filterMap (sentSlot (fun s => if s == "B two." then none else some [5])) :=
  (c2_sentence_audio (fun _ h => .ok ("A one. B two. C three.", h, false))
    (fun s => if s == "B two." then none else some [5]) "go" []
    "A one. B two. C three." [] false rfl).2.2.2
    ["A one."] "B two." ["C three."] rfl rfl

end VoiceAgent

namespace VoiceAgent

/-! ### Trimmed-ness of `_process_transcript_text` output -/

/-- A character list with no whitespace at either end. -/
def noEdgeWs (l : List Char) : Prop :=
  (∀ c, l.head? = some c → pyIsSpace c = false) ∧
  (∀ c, l.getLast? = some c → pyIsSpace c = false)

/-- The head surviving `dropWhile p` falsifies `p`. -/
theorem head?_dropWhile_not {α} (p : α → Bool) :
    ∀ (l : List α) (c : α), (l.dropWhile p).head? = some c → p c = false := by
  intro l
  induction l with
  | nil => intro c hc; cases hc
  | cons a t ih =>
    intro c hc
    rw [List.dropWhile_cons] at hc
    by_cases hp : p a
    · rw [if_pos hp] at hc
      exact ih c hc
    · rw [if_neg hp] at hc
      cases hc
      simpa using hp

/-- `dropWhile` does not touch the last element when its result is
non-empty. -/
theorem getLast?_dropWhile_eq {α} (p : α → Bool) :
    ∀ l : List α, l.dropWhile p ≠ [] → (l.dropWhile p).getLast? = l.getLast? := by
  intro l
  induction l with
  | nil => intro h; exact absurd rfl h
  | cons a t ih =>
    intro h
    rw [List.dropWhile_cons]
    by_cases hp : p a
    · rw [List.dropWhile_cons, if_pos hp] at h
      rw [if_pos hp, ih h]
      cases t with
      | nil => exact absurd rfl h
      | cons b t2 => rw [List.getLast?_cons_cons]
    · rw [if_neg hp]

/-- `dropWhile` is the identity when the head already falsifies `p`. -/
theorem dropWhile_eq_self_of_head {α} (p : α → Bool) (l : List α)
    (h : ∀ c, l.head? = some c → p c = false) : l.dropWhile p = l := by
  cases l with
  | nil => rfl
  | cons a t =>
    rw [List.dropWhile_cons, h a rfl]
    simp

/-- The element named by `getLast?` is a member. -/
theorem mem_of_getLast?_eq {α} : ∀ (l : List α) (a : α), l.getLast? = some a → a ∈ l := by
  intro l
  induction l with
  | nil => intro a ha; cases ha
  | cons b t ih =>
    intro a ha
    cases t with
    | nil => cases ha; exact List.mem_singleton.mpr rfl
    | cons c t2 =>
      rw [List.getLast?_cons_cons] at ha
      exact List.mem_cons_of_mem b (ih a ha)

/-- A non-empty list has a last element. -/
theorem getLast?_cons_isSome {α} : ∀ (t : List α) (a : α), ∃ y, (a :: t).getLast? = some y := by
  intro t
  induction t with
  | nil => intro a; exact ⟨a, rfl⟩
  | cons b t2 ih =>
    intro a
    rw [List.getLast?_cons_cons]
    exact ih b

/-- `str.strip()` leaves no whitespace at either end. -/
theorem stripList_noEdgeWs (l : List Char) : noEdgeWs (stripList l) := by
  constructor
  · intro c hc
    unfold stripList at hc
    rw [List.head?_reverse] at hc
    have hne : ((l.dropWhile pyIsSpace).reverse.dropWhile pyIsSpace) ≠ [] := by
      intro h0
      rw [h0] at hc
      cases hc
    rw [getLast?_dropWhile_eq _ _ hne, List.getLast?_reverse] at hc
    exact head?_dropWhile_not _ _ c hc
  · intro c hc
    unfold stripList at hc
    rw [List.getLast?_reverse] at hc
    exact head?_dropWhile_not _ _ c hc

/-- `str.strip()` fixes strings with no whitespace at either end. -/
theorem stripList_eq_self (l : List Char) (h : noEdgeWs l) : stripList l = l := by
  unfold stripList
  rw [dropWhile_eq_self_of_head _ l h.1]
  rw [dropWhile_eq_self_of_head _ l.reverse ?_]
  · exact List.reverse_reverse l
  · intro c hc
    rw [List.head?_reverse] at hc
    exact h.2 c hc

/-- If a whitespace collapse comes out empty, the input was all
whitespace. -/
theorem collapseWs_eq_nil_all_ws :
    ∀ (l : List Char) (b : Bool), collapseWs b l = [] → ∀ x ∈ l, pyIsSpace x = true := by
  intro l
  induction l with
  | nil => intro b _ x hx; cases hx
  | cons a t ih =>
    intro b hnil x hx
    by_cases ha : pyIsSpace a
    · by_cases hb : b
      · rw [collapseWs, if_pos ha, if_pos hb] at hnil
        rcases List.mem_cons.mp hx with rfl | hx'
        · exact ha
        · exact ih true hnil x hx'
      · rw [collapseWs, if_pos ha, if_neg hb] at hnil
        cases hnil
    · rw [collapseWs, if_neg ha] at hnil
      cases hnil

/-- Collapse of a non-empty list, outside a whitespace run, is non-empty. -/
theorem collapseWs_false_ne_nil (a : Char) (t : List Char) :
    collapseWs false (a :: t) ≠ [] := by
  by_cases ha : pyIsSpace a <;> simp [collapseWs, ha]

/-- Whitespace collapse preserves a whitespace-free head. -/
theorem collapseWs_head_not_ws (l : List Char)
    (h : ∀ c, l.head? = some c → pyIsSpace c = false) :
    ∀ c, (collapseWs false l).head? = some c → pyIsSpace c = false := by
  cases l with
  | nil => intro c hc; cases hc
  | cons a t =>
    intro c hc
    have ha := h a rfl
    rw [collapseWs, if_neg (by simp [ha])] at hc
    simp only [List.head?_cons, Option.some.injEq] at hc
    subst hc
    exact ha

/-- Whitespace collapse preserves a whitespace-free last element. -/
theorem collapseWs_getLast_not_ws :
    ∀ (l : List Char) (b : Bool),
    (∀ c, l.getLast? = some c → pyIsSpace c = false) →
    ∀ c, (collapseWs b l).getLast? = some c → pyIsSpace c = false := by
  intro l
  induction l with
  | nil => intro b _ c hc; cases hc
  | cons a t ih =>
    intro b h c hc
    cases t with
    | nil =>
      have ha := h a (by simp)
      rw [collapseWs, if_neg (by simp [ha])] at hc
      rw [show collapseWs false ([] : List Char) = [] from rfl] at hc
      simp only [List.getLast?_singleton, Option.some.injEq] at hc
      subst hc
      exact ha
    | cons a2 t2 =>
      have htail : ∀ c, (a2 :: t2).getLast? = some c → pyIsSpace c = false := by
        intro c' hc'
        exact h c' (by rw [List.getLast?_cons_cons]; exact hc')
      by_cases ha : pyIsSpace a
      · by_cases hb : b
        · rw [collapseWs, if_pos ha, if_pos hb] at hc
          exact ih true htail c hc
        · rw [collapseWs, if_pos ha, if_neg hb] at hc
          cases hX : collapseWs true (a2 :: t2) with
          | nil =>
            obtain ⟨y, hy⟩ := getLast?_cons_isSome t2 a2
            have hyw := collapseWs_eq_nil_all_ws (a2 :: t2) true hX y
              (mem_of_getLast?_eq _ y hy)
            rw [htail y hy] at hyw
            cases hyw
          | cons x xs =>
            rw [hX, List.getLast?_cons_cons] at hc
            exact ih true htail c (by rw [hX]; exact hc)
      · rw [collapseWs, if_neg ha] at hc
        cases hX : collapseWs false (a2 :: t2) with
        | nil => exact absurd hX (collapseWs_false_ne_nil a2 t2)
        | cons x xs =>
          rw [hX, List.getLast?_cons_cons] at hc
          exact ih false htail c (by rw [hX]; exact hc)

/-- Upper-casing an ASCII character never produces whitespace. -/
theorem pyUpperChar_not_ws (c : Char) (h : pyIsSpace c = false) :
    pyIsSpace (pyUpperChar c) = false := by
  unfold pyUpperChar
  split <;> first | rfl | exact h

/-- The capitalization step preserves whitespace-free ends. -/
theorem capitalizeFirst_noEdgeWs (l : List Char) (h : noEdgeWs l) :
    noEdgeWs (capitalizeFirst l) := by
  cases l with
  | nil => exact h
  | cons a t =>
    have ha := h.1 a rfl
    by_cases hu : pyIsUpper a
    · rw [capitalizeFirst, if_neg (by simp [hu])]
      exact h
    · rw [capitalizeFirst, if_pos (by simp [hu])]
      constructor
      · intro c hc
        simp only [List.head?_cons, Option.some.injEq] at hc
        subst hc
        exact pyUpperChar_not_ws a ha
      · intro c hc
        cases t with
        | nil =>
          simp only [List.getLast?_singleton, Option.some.injEq] at hc
          subst hc
          exact pyUpperChar_not_ws a ha
        | cons b t2 =>
          rw [List.getLast?_cons_cons] at hc
          exact h.2 c (by rw [List.getLast?_cons_cons]; exact hc)

/-- The output of `_process_transcript_text` has no whitespace at either
end. -/
theorem processTranscriptText_noEdgeWs (s : String) :
    noEdgeWs (processTranscriptText s).toList := by
  unfold processTranscriptText
  split
  · unfold noEdgeWs
    refine And.intro ?_ ?_
    · intro c hc
      simp at hc
    · intro c hc
      simp at hc
  · show noEdgeWs (String.mk _).toList
    have hstrip := stripList_noEdgeWs s.toList
    exact capitalizeFirst_noEdgeWs _
      ⟨collapseWs_head_not_ws _ hstrip.1, collapseWs_getLast_not_ws _ false hstrip.2⟩

/-- The text `_process_transcript_text` produces is already stripped:
`str.strip()` fixes it. -/
theorem pyStrip_processTranscriptText (s : String) :
    pyStrip (processTranscriptText s) = processTranscriptText s := by
  have hne := processTranscriptText_noEdgeWs s
  unfold pyStrip
  rw [stripList_eq_self _ hne]
  rfl

end VoiceAgent

namespace VoiceAgent

/-- C8: with the final callback registered, `_on_turn` invokes it exactly
for end-of-turn events whose transcript is non-empty after stripping; the
text passed is the processed text, itself free of leading or trailing
whitespace; empty or whitespace-only transcripts invoke no callback at all,
and non-end-of-turn events never invoke the final callback, whatever their
text. -/
theorem c8_final_callback (hasFinalCb hasPartialCb : Bool) (ev : TurnEvent) :
    (pyStrip (ev.transcript.getD "") = "" →
      (onTurn hasFinalCb hasPartialCb ev).1 = none) ∧
    (ev.end_of_turn = false →
      ∀ t, (onTurn hasFinalCb hasPartialCb ev).1 ≠ some (.finalCall t)) ∧
    (hasFinalCb = true → ev.end_of_turn = true →
      pyStrip (ev.transcript.getD "") ≠ "" →
      (onTurn hasFinalCb hasPartialCb ev).1 =
        some (.finalCall (processTranscriptText (pyStrip (ev.transcript.getD ""))))) ∧
    (∀ t, (onTurn hasFinalCb hasPartialCb ev).1 = some (.finalCall t) →
      pyStrip t = t) := by
  refine ⟨?_, ?_, ?_, ?_⟩
  · intro hempty
    simp only [onTurn]
    rw [if_pos (by simp [hempty])]
  · intro hpart t
    simp only [onTurn]
    by_cases hempty : (pyStrip (ev.transcript.getD "") == "") = true
    · rw [if_pos hempty]
      simp
    · rw [if_neg hempty, hpart]
      cases hasPartialCb <;> simp
  · intro hcb hturn hne
    simp only [onTurn]
    rw [if_neg (by simpa using hne), hturn, if_pos rfl, hcb]
    rfl
  · intro t ht
    simp only [onTurn] at ht
    by_cases hempty : (pyStrip (ev.transcript.getD "") == "") = true
    · rw [if_pos hempty] at ht
      cases ht
    · rw [if_neg hempty] at ht
      cases hturn : ev.end_of_turn with
      | false =>
        rw [hturn] at ht
        cases hasPartialCb <;> simp_all
      | true =>
        rw [hturn] at ht
        cases hasFinalCb with
        | false => simp_all
        | true =>
          simp only [if_pos, Option.some.injEq, CallbackCall.finalCall.injEq] at ht
          rw [← ht]
          exact pyStrip_processTranscriptText _

/-- C8 witness: a whitespace-padded end-of-turn transcript reaches the
final callback stripped and processed. -/
theorem c8_final_callback_witness :
    (onTurn true false ⟨some "  hi   there ", true, true⟩).1 =
      some (.finalCall (processTranscriptText (pyStrip "  hi   there "))) :=
  (c8_final_callback true false ⟨some "  hi   there ", true, true⟩).2.2.1
    rfl rfl (by decide)

end VoiceAgent
